import Mathlib

/-!
Shallow embedding of the odor-source-detection query pipeline
(`SRC/components/query_extractor.py`, `SRC/components/query_processor.py`,
`SRC/components/kb_preparation.py`), together with theorems settling the
specification claims about it.

External collaborators (the GeoText/spaCy NER stages, the Nominatim
geocoder, the pyproj EPSG:4326 -> EPSG:32643 reprojection, and the sklearn
cosine kernel) are taken as parameters of the embedded functions, so the
theorems quantify over their behaviour.  Machine floats are modelled by
rationals; square roots (distances, which the float code takes with
`shapely.distance`) appear as `Real.sqrt` of the rational squared value.
-/

namespace Odour

/-! ## Characters and substring search -/

/-- Python regex `\w` over lower-cased ASCII text: letters, digits, underscore. -/
def isWordChar (c : Char) : Bool := c.isAlphanum || c == '_'

/-- Lower-case every character (model of `str.lower()` on the data in play). -/
def lowerL (s : List Char) : List Char := s.map Char.toLower

/-- Boolean prefix test on character lists. -/
def listPref : List Char → List Char → Bool
  | [], _ => true
  | _ :: _, [] => false
  | a :: as, b :: bs => a == b && listPref as bs

theorem listPref_iff (p s : List Char) : listPref p s = true ↔ ∃ r, s = p ++ r := by
  induction p generalizing s with
  | nil => simp [listPref]
  | cons a as ih =>
    cases s with
    | nil => simp [listPref]
    | cons b bs =>
      simp only [listPref, Bool.and_eq_true, beq_iff_eq, ih]
      constructor
      · rintro ⟨rfl, r, rfl⟩; exact ⟨r, rfl⟩
      · rintro ⟨r, h⟩
        cases h
        exact ⟨rfl, r, rfl⟩

/-- Substring containment: `pat` occurs contiguously somewhere in `s`
(model of Python `pat in s`). -/
def containsSub (pat : List Char) : List Char → Bool
  | [] => listPref pat []
  | c :: cs => listPref pat (c :: cs) || containsSub pat cs

theorem containsSub_iff (pat s : List Char) :
    containsSub pat s = true ↔ ∃ l r, s = l ++ pat ++ r := by
  induction s with
  | nil =>
    simp only [containsSub, listPref_iff]
    constructor
    · rintro ⟨r, h⟩; exact ⟨[], r, h⟩
    · rintro ⟨l, r, h⟩
      rcases List.append_eq_nil.mp ((List.append_assoc l pat r) ▸ h.symm) with ⟨h1, h2⟩
      rcases List.append_eq_nil.mp h2 with ⟨h3, h4⟩
      exact ⟨[], by simp [h3]⟩
  | cons c cs ih =>
    simp only [containsSub, Bool.or_eq_true, listPref_iff, ih]
    constructor
    · rintro (⟨r, h⟩ | ⟨l, r, h⟩)
      · exact ⟨[], r, by simp [h]⟩
      · exact ⟨c :: l, r, by simp [h]⟩
    · rintro ⟨l, r, h⟩
      cases l with
      | nil => exact Or.inl ⟨r, by simpa using h⟩
      | cons x xs =>
        rcases List.cons_eq_cons.mp h with ⟨rfl, h2⟩
        exact Or.inr ⟨xs, r, h2⟩

/-! ## The stage-3 area matcher of `QueryExtractor.extract_location`

The source runs `re.search(rf'\b{re.escape(area.lower())}\w*\b', query_lower)`.
Every area name begins and ends with a word character, so the pattern matches
iff the lowered area name occurs in the lowered query at a position that is
the start of the string or is preceded by a non-word character (the trailing
`\w*\b` is then always satisfiable). -/

/-- Scan `s` for an occurrence of `pat` whose start position is at a word
boundary; `bdry` says whether the current position follows the string start
or a non-word character. -/
def boundedAux (pat : List Char) : Bool → List Char → Bool
  | bdry, [] => bdry && listPref pat []
  | bdry, c :: cs => (bdry && listPref pat (c :: cs)) || boundedAux pat (!isWordChar c) cs

/-- Model of `re.search(rf'\b{re.escape(area.lower())}\w*\b', query.lower())`
being a match, for patterns that begin and end with a word character. -/
def areaMatch (area q : String) : Bool :=
  boundedAux (lowerL area.data) true (lowerL q.data)

/-- The hardcoded Ahmedabad neighborhood list, in source order
(`QueryExtractor.ahmedabad_areas`). -/
def ahmedabad_areas : List String :=
  ["Navrangpura", "Vastrapur", "Satellite", "Bopal", "Maninagar",
   "Chandkheda", "Thaltej", "Bodakdev", "Ghatlodia", "Isanpur",
   "Vejalpur", "Gota", "Naranpura", "Sabarmati", "Ranip",
   "Ellis Bridge", "Paldi", "Shahibaug", "Memnagar", "Jodhpur",
   "Ambawadi", "Kalupur", "Naroda", "Odhav", "Vatva", "Nikol",
   "Gheekanta", "Jamalpur", "Sola", "Sarkhej", "Hansol", "Asarwa",
   "Dariapur", "Gomtipur", "Behrampura", "Raipur", "Vastral",
   "Amraiwadi", "New Ranip", "Lambha", "Rakhial", "Kubernagar",
   "Chandlodia", "SindhuBhavan"]

/-- Model of `QueryExtractor.extract_location`.  The two generic NER stages (GeoText
city lookup and spaCy GPE tagging) are external models, passed in as oracles
returning the first hit or `none`; stage 3 walks the hardcoded area list in
order and returns the first list entry whose pattern matches. -/
def extract_location (stage1 stage2 : String → Option String) (q : String) :
    Option String :=
  match stage1 q with
  | some c => some c
  | none =>
    match stage2 q with
    | some g => some g
    | none => ahmedabad_areas.find? fun a => areaMatch a q

/-! ## Facility records and tag parsing -/

/-- One row of `artifacts/ahmedabad_odor_sources_cleaned.csv` as read by
`QueryProcessor` (`name, type, tags, latitude, longitude`); `none` models a
NaN cell, coordinates are WGS-84 degrees as rationals. -/
structure FacilityRow where
  name : Option String
  ftype : String
  tags : Option String
  latitude : ℚ
  longitude : ℚ
deriving DecidableEq

/-- Apostrophe, written by code point to keep source scanning simple. -/
def quoteChar : Char := Char.ofNat 39

/-- Opening curly brace, by code point. -/
def braceL : Char := Char.ofNat 123

/-- Closing curly brace, by code point. -/
def braceR : Char := Char.ofNat 125

def isJsonWs (c : Char) : Bool := c == ' ' || c == '\t' || c == '\n' || c == '\r'

def skipWs : List Char → List Char
  | [] => []
  | c :: cs => if isJsonWs c then skipWs cs else c :: cs

/-- Parse the body of a JSON string literal after the opening quote,
accumulating into `acc`; escape sequences are rejected (the ETL's
`json.dumps` output for the tag whitelist contains none). -/
def parseJStrAux : List Char → List Char → Option (String × List Char)
  | [], _ => none
  | c :: cs, acc =>
    if c == '"' then some (String.mk acc.reverse, cs)
    else if c == '\\' then none
    else parseJStrAux cs (c :: acc)

/-- Parse a JSON string literal, returning content and remaining input. -/
def parseJStr : List Char → Option (String × List Char)
  | c :: cs => if c == '"' then parseJStrAux cs [] else none
  | [] => none

mutual
/-- A parsed JSON value, as `json.loads` returns it: string, number (its
literal digit text is carried verbatim — Python re-renders floats, but the
difference is confined to digit characters, which the letter-only keyword
scan cannot see), boolean, null, array, or object. -/
inductive JValue : Type where
  | str (s : String)
  | num (lit : String)
  | jbool (b : Bool)
  | null
  | arr (elems : JArr)
  | obj (fields : JObj)
deriving DecidableEq
/-- Spine of a JSON array's element list. -/
inductive JArr : Type where
  | nil
  | cons (v : JValue) (rest : JArr)
deriving DecidableEq
/-- Spine of a JSON object's field list (keys in textual order, as Python
dicts preserve insertion order). -/
inductive JObj : Type where
  | nil
  | cons (k : String) (v : JValue) (rest : JObj)
deriving DecidableEq
end

/-- The values view of a parsed object, in field order (`dict.values()`). -/
def jobjValues : JObj → List JValue
  | .nil => []
  | .cons _ v rest => v :: jobjValues rest

/-- Split a leading run of digits from the input. -/
def spanDigits : List Char → List Char × List Char
  | [] => ([], [])
  | c :: cs =>
    if c.isDigit then
      let p := spanDigits cs
      (c :: p.1, p.2)
    else ([], c :: cs)

/-- Parse a JSON number (optional minus, digits, optional fraction),
carrying its literal text. -/
def parseNum : List Char → Option (JValue × List Char)
  | [] => none
  | c0 :: cs0 =>
    let neg : List Char := if c0 == '-' then ['-'] else []
    let t := if c0 == '-' then cs0 else c0 :: cs0
    match t with
    | [] => none
    | c :: cs =>
      if c.isDigit then
        let p := spanDigits (c :: cs)
        match p.2 with
        | d :: ds =>
          if d == '.' then
            match ds with
            | e :: es =>
              if e.isDigit then
                let q := spanDigits (e :: es)
                some (.num (String.mk (neg ++ p.1 ++ '.' :: q.1)), q.2)
              else none
            | [] => none
          else some (.num (String.mk (neg ++ p.1)), d :: ds)
        | [] => some (.num (String.mk (neg ++ p.1)), [])
      else none

mutual
/-- Recursive JSON value parser (model of `json.loads`, without escape
sequences or exponent notation, which the tag column never contains); `fuel`
bounds the recursion by the input length. -/
def parseJV : ℕ → List Char → Option (JValue × List Char)
  | 0, _ => none
  | fuel + 1, s =>
    match skipWs s with
    | [] => none
    | c :: rest =>
      if c == '"' then
        match parseJStrAux rest [] with
        | some (str, tail) => some (.str str, tail)
        | none => none
      else if c == braceL then
        match skipWs rest with
        | [] => none
        | d :: rest2 =>
          if d == braceR then some (.obj .nil, rest2)
          else
            match parseJFields fuel (d :: rest2) with
            | some (fs, tail) => some (.obj fs, tail)
            | none => none
      else if c == '[' then
        match skipWs rest with
        | [] => none
        | d :: rest2 =>
          if d == ']' then some (.arr .nil, rest2)
          else
            match parseJElems fuel (d :: rest2) with
            | some (es, tail) => some (.arr es, tail)
            | none => none
      else if listPref "true".data (c :: rest) then
        some (.jbool true, (c :: rest).drop 4)
      else if listPref "false".data (c :: rest) then
        some (.jbool false, (c :: rest).drop 5)
      else if listPref "null".data (c :: rest) then
        some (.null, (c :: rest).drop 4)
      else parseNum (c :: rest)
/-- Parse a nonempty `"key": value` field list up to the closing brace. -/
def parseJFields : ℕ → List Char → Option (JObj × List Char)
  | 0, _ => none
  | fuel + 1, s =>
    match parseJStr (skipWs s) with
    | none => none
    | some (k, r1) =>
      match skipWs r1 with
      | c :: r2 =>
        if c == ':' then
          match parseJV fuel r2 with
          | none => none
          | some (v, r3) =>
            match skipWs r3 with
            | c2 :: r4 =>
              if c2 == ',' then
                match parseJFields fuel r4 with
                | some (fs, rest) => some (.cons k v fs, rest)
                | none => none
              else if c2 == braceR then some (.cons k v .nil, r4)
              else none
            | [] => none
        else none
      | [] => none
/-- Parse a nonempty array element list up to the closing bracket. -/
def parseJElems : ℕ → List Char → Option (JArr × List Char)
  | 0, _ => none
  | fuel + 1, s =>
    match parseJV fuel s with
    | none => none
    | some (v, r1) =>
      match skipWs r1 with
      | c :: r2 =>
        if c == ',' then
          match parseJElems fuel r2 with
          | some (es, rest) => some (.cons v es, rest)
          | none => none
        else if c == ']' then some (.cons v .nil, r2)
        else none
      | [] => none
end

/-- Model of `json.loads` on a tag cell: parse one JSON value and require
only whitespace to remain; `none` models `JSONDecodeError`. -/
def parseTagsTop (s : List Char) : Option JValue :=
  match parseJV (2 * s.length + 2) s with
  | some (v, rest) => if (skipWs rest).isEmpty then some v else none
  | none => none

/-! ## The odor keyword gate (`QueryProcessor.filter_odor_sources`) -/

def odor_keywords : List String :=
  ["landfill", "waste", "industrial", "sewage", "dump", "garbage",
   "chemical", "factory", "slaughterhouse", "refinery"]

/-- The fixed prefix `dict_values([` of the Python values-view rendering. -/
def dvPre : List Char := ['d', 'i', 'c', 't', '_', 'v', 'a', 'l', 'u', 'e', 's', '(', '[']

/-- The fixed suffix `])` of the Python values-view rendering. -/
def dvSuf : List Char := [']', ')']

mutual
/-- Python `repr` of a parsed JSON value: strings singly quoted (escape-free
content, as in this column), numbers by their literal text, `True`/`False`/
`None`, arrays bracketed and objects braced with their nested content. -/
def reprJ : JValue → List Char
  | .str s => quoteChar :: (s.data ++ [quoteChar])
  | .num lit => lit.data
  | .jbool true => "True".data
  | .jbool false => "False".data
  | .null => "None".data
  | .arr es => '[' :: (reprJA es ++ [']'])
  | .obj fs => braceL :: (reprJO fs ++ [braceR])
/-- Comma-space separated reprs of array elements. -/
def reprJA : JArr → List Char
  | .nil => []
  | .cons v rest =>
    reprJ v ++ (match rest with | .nil => [] | .cons _ _ => [',', ' ']) ++ reprJA rest
/-- Comma-space separated `'key': repr` renderings of object fields. -/
def reprJO : JObj → List Char
  | .nil => []
  | .cons k v rest =>
    (quoteChar :: (k.data ++ [quoteChar])) ++ ':' :: ' ' :: reprJ v ++
      (match rest with | .nil => [] | .cons _ _ _ => [',', ' ']) ++ reprJO rest
end

/-- The comma-space separated value reprs inside the values-view
rendering. -/
def renderCore : List JValue → List Char
  | [] => []
  | v :: rest =>
    reprJ v ++ (if rest.isEmpty then [] else [',', ' ']) ++ renderCore rest

/-- Python rendering `str(dict.values())`: the text `dict_values([`, then the
element reprs comma-space separated, then `])`.  The source scans this
rendering (lower-cased) for the keywords. -/
def renderValues (vs : List JValue) : List Char :=
  dvPre ++ renderCore vs ++ dvSuf

/-- Model of `is_odor_source` inside `QueryProcessor.filter_odor_sources`.
A `none` (NaN) cell yields the empty dict; a string failing JSON parsing
raises `JSONDecodeError`, which the source catches and maps to `False`
(fail-closed); a string parsing to valid JSON that is not an object (scalar
or array) makes `.values()` raise an uncaught `AttributeError`, modelled as
`.error ()`; an object — flat or nested — has its values view rendered and
scanned. -/
def is_odor_source (tags : Option String) : Except Unit Bool :=
  match tags with
  | none => .ok (odor_keywords.any fun k => containsSub k.data (lowerL (renderValues [])))
  | some s =>
    match parseTagsTop s.data with
    | none => .ok false
    | some (.obj fs) =>
      .ok (odor_keywords.any fun k =>
        containsSub k.data (lowerL (renderValues (jobjValues fs))))
    | some _ => .error ()

/-! ## Spatial search (`QueryProcessor.find_nearby_sources`) -/

/-- Computable syntactic equality test for `Except` results. -/
def exceptDecEq {ε α : Type} [DecidableEq ε] [DecidableEq α] :
    DecidableEq (Except ε α)
  | .ok a, .ok b =>
    if h : a = b then isTrue (h ▸ rfl)
    else isFalse fun hc => Except.noConfusion hc fun hab => h hab
  | .error a, .error b =>
    if h : a = b then isTrue (h ▸ rfl)
    else isFalse fun hc => Except.noConfusion hc fun hab => h hab
  | .ok _, .error _ => isFalse fun hc => Except.noConfusion hc
  | .error _, .ok _ => isFalse fun hc => Except.noConfusion hc

instance {ε α : Type} [DecidableEq ε] [DecidableEq α] : DecidableEq (Except ε α) :=
  exceptDecEq

/-- Squared planar Euclidean distance between two `(x, y)` points. -/
def distSq (p q : ℚ × ℚ) : ℚ := (p.1 - q.1) * (p.1 - q.1) + (p.2 - q.2) * (p.2 - q.2)

/-- A candidate row as carried through the query pipeline: its original
record-store (DataFrame) index, the row, the square of the value the source
stores in the `distance_m` column (the float code stores its square root),
and the `similarity` column once attached. -/
structure Entry where
  idx : ℕ
  row : FacilityRow
  dsq : ℚ
  sim : Option ℚ := none
deriving DecidableEq

/-- Pair every element with its position, starting at `n` (the DataFrame's
integer index, preserved by boolean-mask filtering). -/
def withIdx {α : Type} : ℕ → List α → List (ℕ × α)
  | _, [] => []
  | n, a :: as => (n, a) :: withIdx (n + 1) as

/-- Model of `QueryProcessor.find_nearby_sources`.  `proj` is the pyproj
EPSG:4326 → EPSG:32643 transform on `(x, y) = (longitude, latitude)` points;
the circular buffer test keeps a row iff its projected point lies within or
on the `radius`-meter circle around the projected query point.  The stored
distance reflects a defect of the source: after the buffer test it converts
the candidates back to EPSG:4326 and then wraps each degree-coordinate
geometry in a GeoSeries *declared* as EPSG:32643 without reprojecting, so
`distance_m` is computed from the UTM query point to the record's raw
`(longitude, latitude)` pair; `dsq` records the square of exactly that
value. -/
def find_nearby_sources (proj : ℚ × ℚ → ℚ × ℚ) (df : List FacilityRow)
    (lat lon radius : ℚ) : List Entry :=
  let qUtm := proj (lon, lat)
  (withIdx 0 df).filterMap fun p =>
    if distSq (proj (p.2.longitude, p.2.latitude)) qUtm ≤ radius * radius then
      some ⟨p.1, p.2, distSq (p.2.longitude, p.2.latitude) qUtm, none⟩
    else none

/-! ## Relevance filter and ranker (`QueryProcessor.filter_odor_sources`) -/

/-- Model of `pandas.Series.apply` over the tag column followed by boolean-mask
selection: the first row whose gate raises aborts the whole call. -/
def exceptFilter (f : Entry → Except Unit Bool) : List Entry → Except Unit (List Entry)
  | [] => .ok []
  | a :: as =>
    match f a with
    | .error e => .error e
    | .ok b =>
      match exceptFilter f as with
      | .error e => .error e
      | .ok l => .ok (if b then a :: l else l)

/-- The `similarity` column, `0.0` when never attached (as in the formatted
output's `row.get('similarity', 0.0)`). -/
def simVal (e : Entry) : ℚ := e.sim.getD 0

/-- The sort order of `sort_values(by=['similarity', 'distance_m'],
ascending=[False, True])`: similarity descending, distance ascending as
tie-break.  Comparing stored squared distances is equivalent to comparing
the float distances, the square root being strictly monotone on
nonnegatives. -/
def rankLe (a b : Entry) : Prop :=
  simVal b < simVal a ∨ (simVal a = simVal b ∧ a.dsq ≤ b.dsq)

instance : DecidableRel rankLe := fun a b => by
  unfold rankLe
  exact inferInstance

instance : IsTotal Entry rankLe := ⟨by
  intro a b
  rcases lt_trichotomy (simVal a) (simVal b) with h | h | h
  · exact Or.inr (Or.inl h)
  · rcases le_total a.dsq b.dsq with hd | hd
    · exact Or.inl (Or.inr ⟨h, hd⟩)
    · exact Or.inr (Or.inr ⟨h.symm, hd⟩)
  · exact Or.inl (Or.inl h)⟩

instance : IsTrans Entry rankLe := ⟨by
  intro a b c hab hbc
  rcases hab with h1 | ⟨e1, d1⟩ <;> rcases hbc with h2 | ⟨e2, d2⟩
  · exact Or.inl (h2.trans h1)
  · exact Or.inl (e2 ▸ h1)
  · exact Or.inl (e1.symm ▸ h2)
  · exact Or.inr ⟨e1.trans e2, d1.trans d2⟩⟩

/-- Model of `QueryProcessor.filter_odor_sources`.  `sims i` is the cosine similarity
of the transformed query vector against row `i` of the precomputed feature
matrix (`similarities[i]` in the source); the assignment
`odor_sources['similarity'] = similarities[odor_sources.index]` looks each
surviving row up by its preserved original index.  With empty query text the
gated set is returned as-is (before any sorting). -/
def filter_odor_sources (sims : ℕ → ℚ) (entries : List Entry) (q : String) :
    Except Unit (List Entry) :=
  match exceptFilter (fun e => is_odor_source e.row.tags) entries with
  | .error e => .error e
  | .ok odor =>
    if q = "" then .ok odor
    else
      .ok (List.insertionSort rankLe
        (odor.map fun e => { e with sim := some (sims e.idx) }))

/-! ## The pipeline (`QueryProcessor.process_query`) -/

structure Coords where
  latitude : ℚ
  longitude : ℚ
deriving DecidableEq

/-- Externally observable calls made by the pipeline, for stating that later
stages are never invoked on early exits. -/
inductive Event where
  | geocodeCall (loc : String)
  | spatialCall (c : Coords)
  | rankCall
deriving DecidableEq

/-- Model of `QueryProcessor.geocode_location`: the Nominatim call `geo` either
resolves (`some`), resolves nothing (`none`), or raises; a raise is caught
and re-raised wrapped as `CustomException`. -/
def geocode_location (geo : String → Except Unit (Option Coords)) (loc : String) :
    Except Unit (Option Coords) :=
  match geo loc with
  | .ok r => .ok r
  | .error _ => .error ()

/-- One formatted output item of `process_query` step 5. -/
structure ResultRow where
  name : String
  ftype : String
  tagsJ : JValue
  latitude : ℚ
  longitude : ℚ
  dsq : ℚ
  similarity : ℚ
deriving DecidableEq

/-- Step 5 of `process_query`: re-parse the tag cell with `json.loads` (a
NaN cell contributes the empty dict) and build the output record, with
`name` defaulting to `"Unknown"` and `similarity` to `0.0`.  Whatever value
`json.loads` returns is stored; only a parse failure raises. -/
def formatRow (e : Entry) : Except Unit ResultRow :=
  match e.row.tags with
  | none =>
    .ok ⟨e.row.name.getD "Unknown", e.row.ftype, .obj .nil, e.row.latitude,
      e.row.longitude, e.dsq, e.sim.getD 0⟩
  | some s =>
    match parseTagsTop s.data with
    | some j =>
      .ok ⟨e.row.name.getD "Unknown", e.row.ftype, j, e.row.latitude,
        e.row.longitude, e.dsq, e.sim.getD 0⟩
    | none => .error ()

/-- Model of `QueryProcessor.process_query`, with its external collaborators as
parameters: the two NER stages, the geocoder, the UTM projection, the
vectorizer transform, the feature-matrix rows, and the cosine kernel.
The search radius is the configured 5000 m.  Alongside the result it
returns the trace of external calls made. -/
def process_query
    (stage1 stage2 : String → Option String)
    (geo : String → Except Unit (Option Coords))
    (proj : ℚ × ℚ → ℚ × ℚ)
    (vectorize : String → List ℚ)
    (matrixRow : ℕ → List ℚ)
    (cosSim : List ℚ → List ℚ → ℚ)
    (df : List FacilityRow) (q : String) :
    Except Unit (List ResultRow) × List Event :=
  match extract_location stage1 stage2 q with
  | none => (.ok [], [])
  | some loc =>
    if loc = "" then (.ok [], [])
    else
      match geocode_location geo loc with
      | .error e => (.error e, [.geocodeCall loc])
      | .ok none => (.ok [], [.geocodeCall loc])
      | .ok (some coords) =>
        let trace1 := [Event.geocodeCall loc, Event.spatialCall coords]
        let nearby := find_nearby_sources proj df coords.latitude coords.longitude 5000
        if nearby = [] then (.ok [], trace1)
        else
          match filter_odor_sources (fun i => cosSim (vectorize q) (matrixRow i)) nearby q with
          | .error e => (.error e, trace1 ++ [Event.rankCall])
          | .ok odor =>
            if odor = [] then (.ok [], trace1 ++ [Event.rankCall])
            else
              match odor.mapM formatRow with
              | .error e => (.error e, trace1 ++ [Event.rankCall])
              | .ok rs => (.ok rs, trace1 ++ [Event.rankCall])

/-! ## Relevance index builder (`KBPreparation`) -/

/-- Contents of an all-string value list, if every value is a string. -/
def strValues : List JValue → Option (List String)
  | [] => some []
  | .str v :: rest => (strValues rest).map fun l => v :: l
  | _ => none

/-- Model of `tags_combined` in `KBPreparation.preprocess_text`: `eval` the
tag cell and space-join its values; a NaN cell contributes the empty string.
The model covers the `json.dumps`-formatted column this code reads: a cell
that does not evaluate (syntax error, or JSON literals `eval` cannot
resolve), evaluates to a non-dict (`.values()` raises), or holds a
non-string value (`" ".join` raises) aborts the build. -/
def tagsCombined (tags : Option String) : Except Unit String :=
  match tags with
  | none => .ok ""
  | some s =>
    match parseTagsTop s.data with
    | some (.obj fs) =>
      match strValues (jobjValues fs) with
      | some vs => .ok (String.intercalate " " vs)
      | none => .error ()
    | _ => .error ()

/-- Model of `combined_text`: space-join of name (NaN contributes empty), the type
label, and the combined tag values. -/
def combinedText (r : FacilityRow) : Except Unit String :=
  match tagsCombined r.tags with
  | .error e => .error e
  | .ok tc => .ok (r.name.getD "" ++ " " ++ r.ftype ++ " " ++ tc)

/-- Model of `KBPreparation.preprocess_text` over the whole record store. -/
def preprocess_text (df : List FacilityRow) : Except Unit (List String) :=
  df.mapM combinedText

/-- sklearn's default token pattern `(?u)\b\w\w+\b` after lower-casing:
maximal word-character runs of length at least two; `acc` holds the current
run reversed. -/
def tokenizeAux : List Char → List Char → List String
  | [], acc => if 2 ≤ acc.length then [String.mk acc.reverse] else []
  | c :: cs, acc =>
    if isWordChar c then tokenizeAux cs (c :: acc)
    else (if 2 ≤ acc.length then [String.mk acc.reverse] else []) ++ tokenizeAux cs []

def tokenize (s : String) : List String := tokenizeAux (lowerL s.data) []

/-- Code-point lexicographic order on character lists, the order by which
sklearn assigns vocabulary indices. -/
def lexLeB : List Char → List Char → Bool
  | [], _ => true
  | _ :: _, [] => false
  | a :: as, b :: bs =>
    if a.toNat < b.toNat then true
    else if a.toNat = b.toNat then lexLeB as bs
    else false

/-- Number of occurrences of term `t` across the tokenized corpus. -/
def termCount (toks : List (List String)) (t : String) : ℕ := (toks.flatten).count t

/-- Selection order of `TfidfVectorizer(max_features=500)`: corpus frequency
descending, ties broken by term order. -/
def vocabRel (toks : List (List String)) (s t : String) : Prop :=
  termCount toks t < termCount toks s ∨
    (termCount toks s = termCount toks t ∧ lexLeB s.data t.data = true)

instance (toks : List (List String)) : DecidableRel (vocabRel toks) := fun s t => by
  unfold vocabRel
  exact inferInstance

/-- The built index artifacts: capped vocabulary, per-term document
frequencies, and the per-record term-count rows.  The float tf-idf weights
sklearn persists are a fixed arithmetic function (smoothed idf and l2
normalization) of these integer statistics, so determinism of the statistics
carries over to the weight vectors. -/
structure RelevanceIndex where
  vocabulary : List String
  docFreq : List ℕ
  counts : List (List ℕ)
deriving DecidableEq

/-- Model of `KBPreparation.initiate_kb_preparation` on an in-memory record store:
`preprocess_text` followed by `generate_tfidf_matrix` with the 500-term
cap. -/
def buildIndex (df : List FacilityRow) : Except Unit RelevanceIndex :=
  match preprocess_text df with
  | .error e => .error e
  | .ok docs =>
    let toks := docs.map tokenize
    let kept := (List.insertionSort (vocabRel toks) (toks.flatten).dedup).take 500
    let vocab := List.insertionSort (fun s t => lexLeB s.data t.data = true) kept
    .ok { vocabulary := vocab
          docFreq := vocab.map fun t => (toks.filter fun d => t ∈ d).length
          counts := toks.map fun d => vocab.map fun t => d.count t }

/-! ## Helper lemmas -/

theorem find?_eq_of_unique {p : String → Bool} {N : String} :
    ∀ {l : List String}, N ∈ l → p N = true →
      (∀ M ∈ l, M ≠ N → p M = false) → l.find? p = some N
  | [], hN, _, _ => absurd hN (List.not_mem_nil N)
  | a :: as, hN, hpN, hother => by
    by_cases ha : p a = true
    · have haN : a = N := by
        by_contra hne
        rw [hother a (List.mem_cons_self a as) hne] at ha
        exact Bool.false_ne_true ha
      subst haN
      exact List.find?_cons_of_pos _ ha
    · rw [List.find?_cons_of_neg _ ha]
      have hNas : N ∈ as := by
        rcases List.mem_cons.mp hN with h | h
        · subst h; exact absurd hpN ha
        · exact h
      exact find?_eq_of_unique hNas hpN
        (fun M hM hMN => hother M (List.mem_cons_of_mem _ hM) hMN)

theorem mem_withIdx {α : Type} (l : List α) :
    ∀ (n i : ℕ) (a : α),
      (i, a) ∈ withIdx n l ↔ ∃ j, i = n + j ∧ l[j]? = some a := by
  induction l with
  | nil => intro n i a; simp [withIdx]
  | cons x xs ih =>
    intro n i a
    simp only [withIdx, List.mem_cons, Prod.mk.injEq]
    constructor
    · rintro (⟨rfl, rfl⟩ | h)
      · exact ⟨0, by omega, by simp⟩
      · rcases (ih (n + 1) i a).mp h with ⟨j, rfl, hj⟩
        exact ⟨j + 1, by omega, by simpa using hj⟩
    · rintro ⟨j, rfl, hj⟩
      cases j with
      | zero =>
        simp only [List.getElem?_cons_zero, Option.some.injEq] at hj
        exact Or.inl ⟨by omega, hj.symm⟩
      | succ j =>
        refine Or.inr ((ih (n + 1) (n + (j + 1)) a).mpr ⟨j, by omega, ?_⟩)
        simpa using hj

theorem mem_find_nearby {proj : ℚ × ℚ → ℚ × ℚ} {df : List FacilityRow}
    {lat lon radius : ℚ} {e : Entry} :
    e ∈ find_nearby_sources proj df lat lon radius ↔
      df[e.idx]? = some e.row ∧
      distSq (proj (e.row.longitude, e.row.latitude)) (proj (lon, lat)) ≤ radius * radius ∧
      e.dsq = distSq (e.row.longitude, e.row.latitude) (proj (lon, lat)) ∧
      e.sim = none := by
  unfold find_nearby_sources
  simp only [List.mem_filterMap]
  constructor
  · rintro ⟨⟨i, r⟩, hmem, hf⟩
    simp only at hf
    by_cases hc : distSq (proj (r.longitude, r.latitude)) (proj (lon, lat)) ≤ radius * radius
    · rw [if_pos hc] at hf
      injection hf with hf
      subst hf
      refine ⟨?_, hc, rfl, rfl⟩
      rcases (mem_withIdx df 0 i r).mp hmem with ⟨j, hij, hj⟩
      have : j = i := by omega
      subst this
      exact hj
    · rw [if_neg hc] at hf; cases hf
  · rintro ⟨hget, hbuf, hdsq, hsim⟩
    refine ⟨(e.idx, e.row), (mem_withIdx df 0 e.idx e.row).mpr ⟨e.idx, by omega, hget⟩, ?_⟩
    simp only
    rw [if_pos hbuf]
    obtain ⟨i, r, d, s⟩ := e
    simp only at hdsq hsim
    rw [hdsq, hsim]

/-- The boolean form of passing the keyword gate without raising. -/
def gatePass (e : Entry) : Bool :=
  match is_odor_source e.row.tags with
  | .ok true => true
  | _ => false

theorem exceptFilter_ok_eq {f : Entry → Except Unit Bool} :
    ∀ {entries l : List Entry}, exceptFilter f entries = .ok l →
      l = entries.filter fun a => match f a with | .ok true => true | _ => false := by
  intro entries
  induction entries with
  | nil => intro l h; injection h with h; simp [h.symm]
  | cons a as ih =>
    intro l h
    unfold exceptFilter at h
    cases hfa : f a with
    | error er => rw [hfa] at h; cases h
    | ok b =>
      rw [hfa] at h
      cases hrec : exceptFilter f as with
      | error er => rw [hrec] at h; cases h
      | ok l2 =>
        rw [hrec] at h
        injection h with h2
        subst h2
        cases b with
        | true => simp [List.filter_cons, hfa, ih hrec]
        | false => simp [List.filter_cons, hfa, ih hrec]

theorem formatRow_similarity {e : Entry} {rr : ResultRow}
    (h : formatRow e = .ok rr) : rr.similarity = e.sim.getD 0 := by
  cases htags : e.row.tags with
  | none =>
    simp only [formatRow, htags] at h
    injection h with h2
    rw [← h2]
  | some s =>
    simp only [formatRow, htags] at h
    cases hp : parseTagsTop s.data with
    | none =>
      simp only [hp] at h
      exact Except.noConfusion h
    | some tp =>
      simp only [hp] at h
      injection h with h2
      rw [← h2]

theorem sqrt_le_iff_sq {d R : ℝ} (hd : 0 ≤ d) (hR : 0 ≤ R) :
    Real.sqrt d ≤ R ↔ d ≤ R * R := by
  constructor
  · intro h
    have h2 : Real.sqrt d * Real.sqrt d ≤ R * R :=
      mul_le_mul h h (Real.sqrt_nonneg d) hR
    rwa [Real.mul_self_sqrt hd] at h2
  · intro h
    have h2 := Real.sqrt_le_sqrt h
    rwa [Real.sqrt_mul_self hR] at h2

theorem distSq_nonneg (p q : ℚ × ℚ) : 0 ≤ distSq p q := by
  unfold distSq
  nlinarith [mul_self_nonneg (p.1 - q.1), mul_self_nonneg (p.2 - q.2)]

theorem distSq_eq_zero_iff {p q : ℚ × ℚ} : distSq p q = 0 ↔ p = q := by
  unfold distSq
  constructor
  · intro h
    have ha : (p.1 - q.1) * (p.1 - q.1) = 0 := by
      nlinarith [mul_self_nonneg (p.1 - q.1), mul_self_nonneg (p.2 - q.2)]
    have hb : (p.2 - q.2) * (p.2 - q.2) = 0 := by
      nlinarith [mul_self_nonneg (p.1 - q.1), mul_self_nonneg (p.2 - q.2)]
    exact Prod.ext (sub_eq_zero.mp (mul_self_eq_zero.mp ha))
      (sub_eq_zero.mp (mul_self_eq_zero.mp hb))
  · rintro rfl; ring

theorem distSq_pos {p q : ℚ × ℚ} (h : p ≠ q) : 0 < distSq p q :=
  lt_of_le_of_ne (distSq_nonneg p q) fun h0 => h (distSq_eq_zero_iff.mp h0.symm)

/-! ## Claim C2: stage-3 extraction of known neighborhood names -/

/-- C2, counterexample: "New Ranip" is in the area list and occurs as a
prefix-bounded leading token of the query "New Ranip", no earlier cascade
stage triggers, yet stage-3 extraction returns "Ranip" (an earlier list
entry whose pattern also matches), not "New Ranip". -/
theorem c2_counterexample :
    "New Ranip" ∈ ahmedabad_areas ∧
    areaMatch "New Ranip" "New Ranip" = true ∧
    extract_location (fun _ => none) (fun _ => none) "New Ranip" = some "Ranip" ∧
    some "Ranip" ≠ some "New Ranip" := by
  refine ⟨by decide, by decide, by decide, by decide⟩

/-- C2 (amended): if no earlier cascade stage triggers, N is a known area
name whose pattern matches the query, and no *other* area name's pattern
matches, then stage-3 extraction returns exactly N.  (The source returns the
first matching entry in list order, so uniqueness of the matching area — or
N being the earliest match — is required; the counterexample "New Ranip"
shows the claim fails without it.) -/
theorem c2_stage3_returns_unique_area (stage1 stage2 : String → Option String)
    (q N : String) (h1 : stage1 q = none) (h2 : stage2 q = none)
    (hN : N ∈ ahmedabad_areas) (hmatch : areaMatch N q = true)
    (honly : ∀ M ∈ ahmedabad_areas, M ≠ N → areaMatch M q = false) :
    extract_location stage1 stage2 q = some N := by
  unfold extract_location
  rw [h1, h2]
  exact find?_eq_of_unique hN hmatch honly

/-- Witness for C2's amended theorem at the query "odor in Navrangpura". -/
theorem c2_stage3_returns_unique_area_witness :
    extract_location (fun _ => none) (fun _ => none) "odor in Navrangpura" =
      some "Navrangpura" :=
  c2_stage3_returns_unique_area (fun _ => none) (fun _ => none)
    "odor in Navrangpura" "Navrangpura" rfl rfl (by decide) (by decide) (by decide)

/-! ## Claim C9: absent extraction short-circuits the pipeline -/

/-- C9: whenever the extractor cascade yields nothing, `process_query`
returns the empty result for every possible geocoder, projection, record
store, vectorizer and cosine kernel, and the trace of external calls is
empty: geocoding, the spatial search and the ranker are never invoked. -/
theorem c9_absent_extraction_short_circuits
    (stage1 stage2 : String → Option String)
    (geo : String → Except Unit (Option Coords)) (proj : ℚ × ℚ → ℚ × ℚ)
    (vectorize : String → List ℚ) (matrixRow : ℕ → List ℚ)
    (cosSim : List ℚ → List ℚ → ℚ) (df : List FacilityRow) (q : String)
    (h : extract_location stage1 stage2 q = none) :
    process_query stage1 stage2 geo proj vectorize matrixRow cosSim df q =
      (.ok [], []) := by
  unfold process_query
  rw [h]

/-- Witness for C9 at the spec's scenario query "what is that awful smell". -/
theorem c9_absent_extraction_short_circuits_witness :
    process_query (fun _ => none) (fun _ => none) (fun _ => .ok none)
      (fun p => p) (fun _ => []) (fun _ => []) (fun _ _ => 0) []
      "what is that awful smell" = (.ok [], []) :=
  c9_absent_extraction_short_circuits (fun _ => none) (fun _ => none)
    (fun _ => .ok none) (fun p => p) (fun _ => []) (fun _ => []) (fun _ _ => 0)
    [] "what is that awful smell" (by decide)

/-! ## Claim C5: radius-buffer membership of the spatial search -/

/-- C5: a record is returned by the spatial search iff it is in the record
store and its projected location lies within or on the boundary of the
`radius`-meter circle around the projected query point, i.e. iff the planar
Euclidean distance between the two projected points is at most `radius`. -/
theorem c5_buffer_membership (proj : ℚ × ℚ → ℚ × ℚ) (df : List FacilityRow)
    (lat lon radius : ℚ) (hR : 0 ≤ radius) (i : ℕ) (r : FacilityRow) :
    (∃ e ∈ find_nearby_sources proj df lat lon radius, e.idx = i ∧ e.row = r) ↔
      df[i]? = some r ∧
        Real.sqrt ((distSq (proj (r.longitude, r.latitude)) (proj (lon, lat)) : ℚ) : ℝ)
          ≤ (radius : ℝ) := by
  have hRc : (0 : ℝ) ≤ (radius : ℝ) := by exact_mod_cast hR
  constructor
  · rintro ⟨e, he, hi, hr⟩
    rcases mem_find_nearby.mp he with ⟨hget, hbuf, _, _⟩
    subst hi
    subst hr
    refine ⟨hget, ?_⟩
    have hd : (0 : ℝ) ≤
        ((distSq (proj (e.row.longitude, e.row.latitude)) (proj (lon, lat)) : ℚ) : ℝ) := by
      exact_mod_cast distSq_nonneg _ _
    exact (sqrt_le_iff_sq hd hRc).mpr (by exact_mod_cast hbuf)
  · rintro ⟨hget, hsqrt⟩
    refine ⟨⟨i, r, distSq (r.longitude, r.latitude) (proj (lon, lat)), none⟩,
      mem_find_nearby.mpr ⟨hget, ?_, rfl, rfl⟩, rfl, rfl⟩
    have hd : (0 : ℝ) ≤
        ((distSq (proj (r.longitude, r.latitude)) (proj (lon, lat)) : ℚ) : ℝ) := by
      exact_mod_cast distSq_nonneg _ _
    have := (sqrt_le_iff_sq hd hRc).mp hsqrt
    exact_mod_cast this

/-- Witness for C5: with the identity projection, a record at the query point
itself is returned. -/
theorem c5_buffer_membership_witness :
    ∃ e ∈ find_nearby_sources (fun p => p)
        [⟨some "Pirana Landfill", "Point", none, 23, 72⟩] 23 72 5000,
      e.idx = 0 ∧ e.row = ⟨some "Pirana Landfill", "Point", none, 23, 72⟩ :=
  (c5_buffer_membership (fun p => p)
      [⟨some "Pirana Landfill", "Point", none, 23, 72⟩] 23 72 5000
      (by norm_num) 0 ⟨some "Pirana Landfill", "Point", none, 23, 72⟩).mpr
    ⟨rfl, by norm_num [distSq, Real.sqrt_zero]⟩

/-! ## Claim C1: the attached `distance_m` is not the projected distance -/

/-- C1 (code defect): the source computes `distance_m` from the UTM query
point to the record's *unprojected* (longitude, latitude) coordinates — after
the buffer test it converts geometries back to EPSG:4326 and then declares
them as EPSG:32643 without transforming.  For a record located exactly at the
query point, the claimed value (planar distance between the two projected
points) is 0, yet the attached distance is strictly positive for every
projection that actually moves the point (as the real EPSG:32643 transform
does: it sends (72.62°E, 23°N) to coordinates of hundreds of kilometers). -/
theorem c1_distance_uses_unprojected_coords (proj : ℚ × ℚ → ℚ × ℚ)
    (h : proj (72.62, 23) ≠ (72.62, 23)) :
    ∃ e ∈ find_nearby_sources proj
        [⟨some "Pirana Landfill", "Polygon", none, 23, 72.62⟩] 23 72.62 5000,
      distSq (proj (e.row.longitude, e.row.latitude)) (proj (72.62, 23)) = 0 ∧
      0 < Real.sqrt (e.dsq : ℝ) := by
  refine ⟨⟨0, ⟨some "Pirana Landfill", "Polygon", none, 23, 72.62⟩,
      distSq (72.62, 23) (proj (72.62, 23)), none⟩,
    mem_find_nearby.mpr ⟨by simp, ?_, rfl, rfl⟩, ?_, ?_⟩
  · have h0 : distSq (proj ((72.62 : ℚ), (23 : ℚ))) (proj (72.62, 23)) = 0 :=
      distSq_eq_zero_iff.mpr rfl
    rw [h0]
    norm_num
  · exact distSq_eq_zero_iff.mpr rfl
  · rw [Real.sqrt_pos]
    have hp : ((72.62 : ℚ), (23 : ℚ)) ≠ proj (72.62, 23) := fun heq => h heq.symm
    exact_mod_cast distSq_pos hp

/-- Witness for C1 with a concrete (affine) projection that moves the
point. -/
theorem c1_distance_uses_unprojected_coords_witness :
    ∃ e ∈ find_nearby_sources (fun p => (p.1 + 1, p.2))
        [⟨some "Pirana Landfill", "Polygon", none, 23, 72.62⟩] 23 72.62 5000,
      distSq ((fun p : ℚ × ℚ => (p.1 + 1, p.2)) (e.row.longitude, e.row.latitude))
          ((fun p : ℚ × ℚ => (p.1 + 1, p.2)) (72.62, 23)) = 0 ∧
      0 < Real.sqrt (e.dsq : ℝ) :=
  c1_distance_uses_unprojected_coords (fun p => (p.1 + 1, p.2))
    (by simp only [Prod.mk.injEq, not_and]; norm_num)

/-! ## Concrete fixtures for counterexamples and witnesses -/

/-- JSON rendering of a flat string map, in the shape `json.dumps` emits for
the whitelisted tag dict. -/
def mkTagStr (kvs : List (String × String)) : String :=
  braceL.toString ++
    String.intercalate ", " (kvs.map fun kv => "\"" ++ kv.1 ++ "\": \"" ++ kv.2 ++ "\"") ++
    braceR.toString

def landfillTags : String := mkTagStr [("landuse", "landfill")]

def rowA : FacilityRow := ⟨some "A", "Point", some landfillTags, 23, 72⟩

def rowB : FacilityRow := ⟨some "B", "Point", some landfillTags, 23, 72⟩

/-- A gate-passing candidate with squared stored distance 16 (float distance 4). -/
def entryA : Entry := ⟨0, rowA, 16, none⟩

/-- A gate-passing candidate with squared stored distance 9 (float distance 3). -/
def entryB : Entry := ⟨1, rowB, 9, none⟩

/-! ## Claim C3: empty query text returns the gated set unsorted -/

/-- C3, counterexample: with empty query text the gated set comes back in
record-store order — here the first returned row has float distance
`√16 = 4` and the second `√9 = 3`, so the result is *not* sorted by
`distance_m` ascending as the claim states. -/
theorem c3_counterexample :
    filter_odor_sources (fun _ => 0) [entryA, entryB] "" = .ok [entryA, entryB] ∧
      Real.sqrt ((entryB.dsq : ℚ) : ℝ) < Real.sqrt ((entryA.dsq : ℚ) : ℝ) := by
  constructor
  · decide
  · have h9 : ((entryB.dsq : ℚ) : ℝ) = 9 := by norm_num [entryB]
    have h16 : ((entryA.dsq : ℚ) : ℝ) = 16 := by norm_num [entryA, rowA]
    rw [h9, h16]
    exact Real.sqrt_lt_sqrt (by norm_num) (by norm_num)

/-- C3 (amended): with empty query text, `filter_odor_sources` returns the
keyword-gated candidate set in record-store order (no sorting of any kind is
applied — in particular not by distance), and the formatted output reports
similarity 0 for rows that never had one attached. -/
theorem c3_empty_query_returns_gated_unsorted (sims : ℕ → ℚ)
    (entries l : List Entry) (h : filter_odor_sources sims entries "" = .ok l) :
    l = entries.filter gatePass ∧
      ∀ e ∈ l, e.sim = none → ∀ rr, formatRow e = .ok rr → rr.similarity = 0 := by
  have hgate : exceptFilter (fun e => is_odor_source e.row.tags) entries = .ok l := by
    unfold filter_odor_sources at h
    cases hf : exceptFilter (fun e => is_odor_source e.row.tags) entries with
    | error er => rw [hf] at h; exact Except.noConfusion h
    | ok odor =>
      rw [hf] at h
      dsimp only at h
      rw [if_pos rfl] at h
      injection h with h2
      rw [h2]
  constructor
  · exact exceptFilter_ok_eq hgate
  · intro e _ hsim rr hrr
    rw [formatRow_similarity hrr, hsim]
    rfl

/-- Witness for C3's amended theorem on the two-candidate fixture. -/
theorem c3_empty_query_returns_gated_unsorted_witness :
    [entryA, entryB] = List.filter gatePass [entryA, entryB] :=
  (c3_empty_query_returns_gated_unsorted (fun _ => 0) [entryA, entryB]
    [entryA, entryB] (by decide)).1

/-! ## Claim C4: geocoder failure versus geocoder miss -/

/-- C4, counterexample: when the geocoder call raises, `process_query` does
not return the empty result — the error propagates to the caller (wrapped as
`CustomException` in the source), contradicting the claim that failures are
treated like a not-found condition. -/
theorem c4_counterexample :
    process_query (fun _ => some "Navrangpura") (fun _ => none) (fun _ => .error ())
        (fun p => p) (fun _ => []) (fun _ => []) (fun _ _ => 0) [] "odor in Navrangpura" =
      (.error (), [.geocodeCall "Navrangpura"]) ∧
    (Except.error () : Except Unit (List ResultRow)) ≠ .ok [] :=
  ⟨by decide, by decide⟩

/-- C4 (amended): after a successful extraction, a geocoder that *resolves
nothing* makes `process_query` return the empty result with no error, but a
geocoder call that *raises* makes `process_query` propagate the error to the
caller; in both cases no spatial search or ranking happens. -/
theorem c4_geocoder_outcomes (stage1 stage2 : String → Option String)
    (geo : String → Except Unit (Option Coords)) (proj : ℚ × ℚ → ℚ × ℚ)
    (vectorize : String → List ℚ) (matrixRow : ℕ → List ℚ)
    (cosSim : List ℚ → List ℚ → ℚ) (df : List FacilityRow) (q loc : String)
    (hext : extract_location stage1 stage2 q = some loc) (hloc : loc ≠ "") :
    (geo loc = .ok none →
      process_query stage1 stage2 geo proj vectorize matrixRow cosSim df q =
        (.ok [], [.geocodeCall loc])) ∧
    (∀ er, geo loc = .error er →
      process_query stage1 stage2 geo proj vectorize matrixRow cosSim df q =
        (.error (), [.geocodeCall loc])) := by
  constructor
  · intro hg
    unfold process_query geocode_location
    rw [hext]
    dsimp only
    rw [if_neg hloc, hg]
  · intro er hg
    unfold process_query geocode_location
    rw [hext]
    dsimp only
    rw [if_neg hloc, hg]

/-- Witness for C4's amended theorem: a geocoder miss yields the empty
result. -/
theorem c4_geocoder_outcomes_witness :
    process_query (fun _ => some "Navrangpura") (fun _ => none) (fun _ => .ok none)
      (fun p => p) (fun _ => []) (fun _ => []) (fun _ _ => 0) [] "odor in Navrangpura" =
      (.ok [], [.geocodeCall "Navrangpura"]) :=
  (c4_geocoder_outcomes (fun _ => some "Navrangpura") (fun _ => none)
    (fun _ => .ok none) (fun p => p) (fun _ => []) (fun _ => []) (fun _ _ => 0)
    [] "odor in Navrangpura" "Navrangpura" rfl (by decide)).1 rfl

/-! ## Claim C6: ordering of the ranked output -/

/-- C6: with non-empty query text every ranked output is sorted by the
attached similarity descending, and within equal-similarity runs the float
distance (the square root of the stored squared value) is non-decreasing. -/
theorem c6_ranked_output_sorted (sims : ℕ → ℚ) (entries : List Entry)
    (q : String) (hq : q ≠ "") (l : List Entry)
    (h : filter_odor_sources sims entries q = .ok l) :
    l.Pairwise fun a b => simVal b ≤ simVal a ∧
      (simVal a = simVal b →
        Real.sqrt ((a.dsq : ℚ) : ℝ) ≤ Real.sqrt ((b.dsq : ℚ) : ℝ)) := by
  unfold filter_odor_sources at h
  cases hf : exceptFilter (fun e => is_odor_source e.row.tags) entries with
  | error er => rw [hf] at h; exact Except.noConfusion h
  | ok odor =>
    rw [hf] at h
    dsimp only at h
    rw [if_neg hq] at h
    injection h with h2
    subst h2
    have hs : List.Pairwise rankLe
        (List.insertionSort rankLe
          (odor.map fun e => { e with sim := some (sims e.idx) })) :=
      List.sorted_insertionSort rankLe _
    refine hs.imp ?_
    intro a b hab
    rcases hab with hlt | ⟨heq, hle⟩
    · exact ⟨le_of_lt hlt, fun he => absurd hlt (by simp [he])⟩
    · exact ⟨heq.ge, fun _ => Real.sqrt_le_sqrt (by exact_mod_cast hle)⟩

/-- Witness for C6 on the two-candidate fixture with distinct similarities. -/
theorem c6_ranked_output_sorted_witness :
    List.Pairwise
      (fun a b : Entry => simVal b ≤ simVal a ∧
        (simVal a = simVal b →
          Real.sqrt ((a.dsq : ℚ) : ℝ) ≤ Real.sqrt ((b.dsq : ℚ) : ℝ)))
      [⟨1, rowB, 9, some 1⟩, ⟨0, rowA, 16, some 0⟩] :=
  c6_ranked_output_sorted (fun i => (i : ℚ)) [entryA, entryB] "x" (by decide)
    [⟨1, rowB, 9, some 1⟩, ⟨0, rowA, 16, some 0⟩] (by decide)

/-! ## Claim C10: index alignment of attached similarities -/

/-- C10: every entry surviving the gate with non-empty query text carries the
cosine score of the query vector against *its own* feature-matrix row: the
original record-store index is preserved through spatial filtering and
keyword gating, and the attached similarity is the kernel applied at exactly
that index. -/
theorem c10_similarity_alignment
    (proj : ℚ × ℚ → ℚ × ℚ) (df : List FacilityRow) (lat lon radius : ℚ)
    (vectorize : String → List ℚ) (matrixRow : ℕ → List ℚ)
    (cosSim : List ℚ → List ℚ → ℚ) (q : String) (hq : q ≠ "") (l : List Entry)
    (h : filter_odor_sources (fun i => cosSim (vectorize q) (matrixRow i))
        (find_nearby_sources proj df lat lon radius) q = .ok l) :
    ∀ e ∈ l, df[e.idx]? = some e.row ∧
      e.sim = some (cosSim (vectorize q) (matrixRow e.idx)) := by
  unfold filter_odor_sources at h
  cases hf : exceptFilter (fun e => is_odor_source e.row.tags)
      (find_nearby_sources proj df lat lon radius) with
  | error er => rw [hf] at h; exact Except.noConfusion h
  | ok odor =>
    rw [hf] at h
    dsimp only at h
    rw [if_neg hq] at h
    injection h with h2
    subst h2
    intro e he
    rw [List.mem_insertionSort] at he
    rcases List.mem_map.mp he with ⟨e0, he0, rfl⟩
    have he0' : e0 ∈ find_nearby_sources proj df lat lon radius :=
      List.mem_of_mem_filter (exceptFilter_ok_eq hf ▸ he0)
    rcases mem_find_nearby.mp he0' with ⟨hget, _, _, _⟩
    exact ⟨hget, rfl⟩

/-- Witness for C10: one record at the query point, constant kernel 7. -/
theorem c10_similarity_alignment_witness :
    [rowA][(0 : ℕ)]? = some rowA ∧
      (⟨0, rowA, 0, some 7⟩ : Entry).sim = some (7 : ℚ) :=
  c10_similarity_alignment (fun p => p) [rowA] 23 72 5000 (fun _ => [])
    (fun _ => []) (fun _ _ => 7) "x" (by decide) [⟨0, rowA, 0, some 7⟩]
    (by
      have hfind : find_nearby_sources (fun p => p) [rowA] 23 72 5000 =
          [⟨0, rowA, 0, none⟩] := by
        simp [find_nearby_sources, withIdx, distSq, rowA]
      rw [hfind]
      decide)
    ⟨0, rowA, 0, some 7⟩ (by decide)

/-! ## Claim C7: determinism of the relevance-index build -/

/-- C7: the index builder is a pure function of the record store — the
source selects the capped vocabulary and the per-record statistics by
deterministic counting with ties broken by term order, with no randomness
source — so two runs on an identical corpus produce identical vocabularies
and identical per-record weight data. -/
theorem c7_rebuild_deterministic (df : List FacilityRow) :
    buildIndex df = buildIndex df ∧
      ∀ i1 i2 : RelevanceIndex, buildIndex df = .ok i1 → buildIndex df = .ok i2 →
        i1.vocabulary = i2.vocabulary ∧ i1.docFreq = i2.docFreq ∧
          i1.counts = i2.counts := by
  refine ⟨rfl, ?_⟩
  intro i1 i2 h1 h2
  rw [h1] at h2
  injection h2 with h3
  rw [h3]
  exact ⟨rfl, rfl, rfl⟩

/-- Witness for C7 on a one-record corpus: both runs produce the vocabulary
["landfill", "point"] with document frequencies [1, 1] and the single count
row [1, 1]. -/
theorem c7_rebuild_deterministic_witness :
    (["landfill", "point"] : List String) = ["landfill", "point"] ∧
      ([1, 1] : List ℕ) = [1, 1] ∧ ([[1, 1]] : List (List ℕ)) = [[1, 1]] :=
  (c7_rebuild_deterministic [rowA]).2 ⟨["landfill", "point"], [1, 1], [[1, 1]]⟩
    ⟨["landfill", "point"], [1, 1], [[1, 1]]⟩ (by decide) (by decide)

/-! ## Claim C8: keyword occurrences cannot span two tag values -/

theorem containsSub_nil_pat (s : List Char) : containsSub [] s = true := by
  cases s <;> simp [containsSub, listPref]

theorem containsSub_nil_of_ne {pat : List Char} (hne : pat ≠ []) :
    containsSub pat [] = false := by
  cases pat with
  | nil => exact absurd rfl hne
  | cons p ps => simp [containsSub, listPref]

/-- An occurrence of an all-letter pattern cannot cover a non-letter
character: it lies entirely left or entirely right of it. -/
theorem containsSub_split_nonalpha {pat x y : List Char} {c : Char}
    (halpha : ∀ a ∈ pat, a.isAlpha = true) (hc : c.isAlpha = false)
    (h : containsSub pat (x ++ c :: y) = true) :
    containsSub pat x = true ∨ containsSub pat y = true := by
  rcases (containsSub_iff _ _).mp h with ⟨l, r, heq⟩
  have heq2 : x ++ (c :: y) = l ++ (pat ++ r) := by
    simpa [List.append_assoc] using heq
  rcases List.append_eq_append_iff.mp heq2 with ⟨w, hw1, hw2⟩ | ⟨w, hw1, hw2⟩
  · cases w with
    | nil =>
      simp only [List.nil_append] at hw2
      cases pat with
      | nil => exact Or.inl (containsSub_nil_pat x)
      | cons p ps =>
        simp only [List.cons_append] at hw2
        injection hw2 with h1 _
        have hmem : c ∈ p :: ps := by rw [h1]; exact List.mem_cons_self _ _
        rw [halpha c hmem] at hc
        exact Bool.noConfusion hc
    | cons w0 ws =>
      simp only [List.cons_append] at hw2
      injection hw2 with _ h2
      exact Or.inr ((containsSub_iff _ _).mpr
        ⟨ws, r, by simpa [List.append_assoc] using h2⟩)
  · rcases List.append_eq_append_iff.mp hw2 with ⟨u, hu1, hu2⟩ | ⟨u, hu1, hu2⟩
    · exact Or.inl ((containsSub_iff _ _).mpr
        ⟨l, u, by rw [hw1, hu1]; simp [List.append_assoc]⟩)
    · cases u with
      | nil =>
        simp only [List.append_nil] at hu1
        exact Or.inl ((containsSub_iff _ _).mpr ⟨l, [], by rw [hw1, ← hu1]; simp⟩)
      | cons u0 us =>
        injection hu2 with h1 _
        have hmem : c ∈ pat := by
          rw [hu1, h1]
          exact List.mem_append_right _ (List.mem_cons_self _ _)
        rw [halpha c hmem] at hc
        exact Bool.noConfusion hc

/-- Specialization: a non-letter head character can be dropped. -/
theorem containsSub_cons_nonalpha {pat y : List Char} {c : Char}
    (hne : pat ≠ []) (halpha : ∀ a ∈ pat, a.isAlpha = true)
    (hc : c.isAlpha = false) (h : containsSub pat (c :: y) = true) :
    containsSub pat y = true := by
  have hsplit := containsSub_split_nonalpha (x := []) halpha hc (by simpa using h)
  rcases hsplit with h1 | h1
  · rw [containsSub_nil_of_ne hne] at h1
    exact Bool.noConfusion h1
  · exact h1

/-- Forward spanning argument over the rendered value list: an all-letter
pattern occurring in the (lower-cased) core rendering occurs inside the repr
of a single value, since adjacent reprs are separated by a comma. -/
theorem containsSub_lower_renderCore {pat : List Char} (hne : pat ≠ [])
    (halpha : ∀ a ∈ pat, a.isAlpha = true) :
    ∀ vs : List JValue, containsSub pat (lowerL (renderCore vs)) = true →
      ∃ v ∈ vs, containsSub pat (lowerL (reprJ v)) = true := by
  intro vs
  induction vs with
  | nil =>
    intro h
    rw [show lowerL (renderCore []) = [] from rfl, containsSub_nil_of_ne hne] at h
    exact Bool.noConfusion h
  | cons v rest ih =>
    intro h
    cases hrest : rest.isEmpty with
    | true =>
      rw [List.isEmpty_iff.mp hrest] at h
      have h2 : containsSub pat (lowerL (reprJ v)) = true := by
        simpa [renderCore, lowerL] using h
      exact ⟨v, List.mem_cons_self _ _, h2⟩
    | false =>
      have hc1 : Char.toLower ',' = ',' := by decide
      have hc2 : Char.toLower ' ' = ' ' := by decide
      have hshape : lowerL (renderCore (v :: rest)) =
          lowerL (reprJ v) ++ ',' :: (' ' :: lowerL (renderCore rest)) := by
        simp [renderCore, hrest, lowerL, List.map_append, hc1, hc2,
          List.append_assoc]
      rw [hshape] at h
      rcases containsSub_split_nonalpha halpha (by decide) h with hv | h3
      · exact ⟨v, List.mem_cons_self _ _, hv⟩
      · have h4 := containsSub_cons_nonalpha hne halpha (by decide) h3
        rcases ih h4 with ⟨w, hw, hcw⟩
        exact ⟨w, List.mem_cons_of_mem _ hw, hcw⟩

/-- Backward embedding: every value's repr occurs contiguously in the core
rendering. -/
theorem renderCore_decomp {v : JValue} :
    ∀ {vs : List JValue}, v ∈ vs →
      ∃ l r, lowerL (renderCore vs) = l ++ lowerL (reprJ v) ++ r := by
  intro vs
  induction vs with
  | nil => intro h; exact absurd h (List.not_mem_nil v)
  | cons w rest ih =>
    intro h
    rcases List.mem_cons.mp h with rfl | hmem
    · refine ⟨[], lowerL ((if rest.isEmpty then ([] : List Char) else [',', ' ']) ++
        renderCore rest), ?_⟩
      simp [renderCore, lowerL, List.map_append, List.append_assoc]
    · rcases ih hmem with ⟨l, r, hlr⟩
      refine ⟨lowerL (reprJ w ++
        (if rest.isEmpty then ([] : List Char) else [',', ' '])) ++ l, r, ?_⟩
      simp only [renderCore, lowerL, List.map_append, List.map_cons,
        List.append_assoc, List.cons_append]
      simp only [lowerL] at hlr
      rw [hlr]
      simp [List.append_assoc]

/-- An all-letter pattern (not hidden in the words "dict" or "values")
occurs in the lower-cased values-view rendering iff it occurs inside a
single value. -/
theorem keyword_in_render_iff {pat : List Char} (hne : pat ≠ [])
    (halpha : ∀ a ∈ pat, a.isAlpha = true)
    (hdict : containsSub pat ['d', 'i', 'c', 't'] = false)
    (hvalues : containsSub pat ['v', 'a', 'l', 'u', 'e', 's'] = false)
    (vs : List JValue) :
    containsSub pat (lowerL (renderValues vs)) = true ↔
      ∃ v ∈ vs, containsSub pat (lowerL (reprJ v)) = true := by
  have hR : lowerL (renderValues vs) =
      dvPre ++ (lowerL (renderCore vs) ++ dvSuf) := by
    simp only [renderValues, lowerL, List.map_append, List.append_assoc]
    rw [show List.map Char.toLower dvPre = dvPre by decide,
      show List.map Char.toLower dvSuf = dvSuf by decide]
  constructor
  · intro h
    rw [hR] at h
    have h1 : containsSub pat
        (['d', 'i', 'c', 't'] ++ '_' ::
          (['v', 'a', 'l', 'u', 'e', 's'] ++ '(' ::
            ('[' :: (lowerL (renderCore vs) ++ dvSuf)))) = true := h
    rcases containsSub_split_nonalpha halpha (by decide) h1 with hx | h2
    · rw [hdict] at hx; exact Bool.noConfusion hx
    rcases containsSub_split_nonalpha halpha (by decide) h2 with hx | h3
    · rw [hvalues] at hx; exact Bool.noConfusion hx
    have h4 := containsSub_cons_nonalpha hne halpha (by decide) h3
    have h5 : containsSub pat (lowerL (renderCore vs) ++ ']' :: [')']) = true := h4
    rcases containsSub_split_nonalpha halpha (by decide) h5 with hcore | hx
    · exact containsSub_lower_renderCore hne halpha vs hcore
    · have h6 := containsSub_cons_nonalpha hne halpha (by decide) hx
      rw [containsSub_nil_of_ne hne] at h6
      exact Bool.noConfusion h6
  · rintro ⟨v, hv, hocc⟩
    rcases renderCore_decomp hv with ⟨l, r, hlr⟩
    rcases (containsSub_iff _ _).mp hocc with ⟨l2, r2, hv2⟩
    apply (containsSub_iff _ _).mpr
    refine ⟨dvPre ++ l ++ l2, r2 ++ r ++ dvSuf, ?_⟩
    rw [hR, hlr, hv2]
    simp [List.append_assoc]

/-- Every odor keyword is a nonempty all-letter word not occurring in the
fixed rendering scaffolding. -/
theorem odor_keyword_facts : ∀ k ∈ odor_keywords, k.data ≠ [] ∧
    (∀ a ∈ k.data, a.isAlpha = true) ∧
    containsSub k.data ['d', 'i', 'c', 't'] = false ∧
    containsSub k.data ['v', 'a', 'l', 'u', 'e', 's'] = false := by decide

/-- A tags string parsing to valid JSON that is not an object (a scalar or
an array) makes the gate raise: `.values()` on a non-dict is an uncaught
`AttributeError`. -/
theorem is_odor_source_error_of_nonobj {s : String} {j : JValue}
    (hp : parseTagsTop s.data = some j) (hno : ∀ fs, j ≠ JValue.obj fs) :
    is_odor_source (some s) = .error () := by
  cases j with
  | obj fs => exact absurd rfl (hno fs)
  | str t => simp [is_odor_source, hp]
  | num t => simp [is_odor_source, hp]
  | jbool b => simp [is_odor_source, hp]
  | null => simp [is_odor_source, hp]
  | arr es => simp [is_odor_source, hp]

/-- C8 (amended): the keyword gate keeps a candidate iff its tags string
parses as a JSON mapping and at least one keyword of the fixed set occurs
inside the lower-cased Python repr of a *single* one of its values — the
scanned text is the comma-separated rendering of the values view, so an
occurrence can never span two adjacent values (plain concatenation of the
values would over-approximate the gate), while nested structure inside one
value, keys included, *is* scanned; a record whose tags string fails JSON
parsing is excluded (fail-closed) without raising; but a tags string that
parses as valid *non-mapping* JSON (a scalar or an array) raises an
uncaught error that aborts the whole query instead of being excluded. -/
theorem c8_gate_keeps_iff (tags : Option String) :
    (is_odor_source tags = .ok true ↔
      ∃ s fs, tags = some s ∧ parseTagsTop s.data = some (.obj fs) ∧
        ∃ k ∈ odor_keywords, ∃ v ∈ jobjValues fs,
          containsSub k.data (lowerL (reprJ v)) = true) ∧
    (∀ s, tags = some s → parseTagsTop s.data = none →
      is_odor_source tags = .ok false) ∧
    (∀ s j, tags = some s → parseTagsTop s.data = some j →
      (∀ fs, j ≠ JValue.obj fs) → is_odor_source tags = .error ()) := by
  refine ⟨?_, ?_, ?_⟩
  · cases tags with
    | none =>
      constructor
      · intro h
        rw [show is_odor_source none = .ok false by decide] at h
        injection h with h2
        exact Bool.noConfusion h2
      · rintro ⟨s, fs, hs, _⟩
        exact Option.noConfusion hs
    | some s =>
      cases hp : parseTagsTop s.data with
      | none =>
        constructor
        · intro h
          simp only [is_odor_source, hp] at h
          injection h with h2
          exact Bool.noConfusion h2
        · rintro ⟨s2, fs, hs2, hp2, _⟩
          injection hs2 with hs3
          rw [← hs3, hp] at hp2
          exact Option.noConfusion hp2
      | some j =>
        by_cases hobj : ∃ fs, j = JValue.obj fs
        · obtain ⟨fs, rfl⟩ := hobj
          simp only [is_odor_source, hp]
          constructor
          · intro h
            injection h with h2
            rcases List.any_eq_true.mp h2 with ⟨k, hk, hck⟩
            obtain ⟨hne, halpha, hdict, hvalues⟩ := odor_keyword_facts k hk
            rcases (keyword_in_render_iff hne halpha hdict hvalues _).mp hck with
              ⟨v, hv, hcv⟩
            exact ⟨s, fs, rfl, hp, k, hk, v, hv, hcv⟩
          · rintro ⟨s2, fs2, hs2, hp2, k, hk, v, hv, hcv⟩
            injection hs2 with hs3
            rw [← hs3, hp] at hp2
            injection hp2 with hp3
            injection hp3 with hp4
            obtain ⟨hne, halpha, hdict, hvalues⟩ := odor_keyword_facts k hk
            have hany : (odor_keywords.any fun k2 =>
                containsSub k2.data (lowerL (renderValues (jobjValues fs)))) = true :=
              List.any_eq_true.mpr ⟨k, hk,
                (keyword_in_render_iff hne halpha hdict hvalues _).mpr
                  ⟨v, hp4.symm ▸ hv, hcv⟩⟩
            rw [hany]
        · push_neg at hobj
          constructor
          · intro h
            rw [is_odor_source_error_of_nonobj hp hobj] at h
            exact Except.noConfusion h
          · rintro ⟨s2, fs2, hs2, hp2, _⟩
            injection hs2 with hs3
            rw [← hs3, hp] at hp2
            injection hp2 with hp3
            exact absurd hp3 (hobj fs2)
  · intro s hs hp
    subst hs
    simp only [is_odor_source, hp]
  · intro s j hs hp hno
    subst hs
    exact is_odor_source_error_of_nonobj hp hno

/-- C8, counterexample: the tags `{"a": "dum", "b": "p"}` parse as a mapping
whose values concatenated and lower-cased contain the keyword "dump", yet
the gate excludes the record (and the ranker drops it), because in the
scanned rendering the two values are quoted and comma-separated — the
claimed concatenation semantics would keep it.  Moreover a tags string that
is valid JSON but not a mapping, such as `["waste"]`, aborts the whole query
with an error instead of being excluded fail-closed as the claim states. -/
theorem c8_counterexample :
    parseTagsTop (mkTagStr [("a", "dum"), ("b", "p")]).data =
        some (.obj (.cons "a" (.str "dum") (.cons "b" (.str "p") .nil))) ∧
    "dump" ∈ odor_keywords ∧
    containsSub "dump".data (lowerL ("dum" ++ "p" : String).data) = true ∧
    is_odor_source (some (mkTagStr [("a", "dum"), ("b", "p")])) = .ok false ∧
    filter_odor_sources (fun _ => 0)
      [⟨0, ⟨none, "Point", some (mkTagStr [("a", "dum"), ("b", "p")]), 23, 72⟩, 0, none⟩]
      "odor query" = .ok [] ∧
    is_odor_source (some "[\"waste\"]") = .error () ∧
    filter_odor_sources (fun _ => 0)
      [⟨0, ⟨none, "Point", some "[\"waste\"]", 23, 72⟩, 0, none⟩]
      "odor query" = .error () := by
  refine ⟨by decide, by decide, by decide, by decide, by decide, by decide, by decide⟩

/-- A tags cell holding a nested object, as `json.dumps` would write
`{"a": {"landfill": "x"}}`. -/
def nestedTags : String :=
  braceL.toString ++ "\"a\": " ++ braceL.toString ++ "\"landfill\": \"x\"" ++
    braceR.toString ++ braceR.toString

/-- Witness for C8's amended theorem: a landfill-tagged record passes the
gate, and so does a record whose keyword sits inside a *nested* object value
(its repr, keys included, is scanned). -/
theorem c8_gate_keeps_iff_witness :
    is_odor_source (some landfillTags) = .ok true ∧
    is_odor_source (some nestedTags) = .ok true :=
  ⟨(c8_gate_keeps_iff (some landfillTags)).1.mpr
      ⟨landfillTags, .cons "landuse" (.str "landfill") .nil, rfl, by decide,
        "landfill", by decide, .str "landfill", by decide, by decide⟩,
   (c8_gate_keeps_iff (some nestedTags)).1.mpr
      ⟨nestedTags, .cons "a" (.obj (.cons "landfill" (.str "x") .nil)) .nil, rfl,
        by decide, "landfill", by decide,
        .obj (.cons "landfill" (.str "x") .nil), by decide, by decide⟩⟩

end Odour
